import Mathlib

/-!
Shallow embedding of the asynchronous read-write lock of `ocl`
(`src/async/rw_vec.rs`: `RwVec`, `PendingRwGuard`, `RwGuard`) and of
`Platform::first` (`src/standard/platform.rs`).

The OpenCL `Event` operations and the `qutex` exclusion queue are outside
the visible sources (only their callers are); those operations are
modelled from the specification, as marked in their doc comments.
Everything else is translated directly from the Rust source.  The element
type of the protected vector is specialised to `Nat`.
-/

deriving instance DecidableEq for Except

namespace OclSpec

/-- State of an OpenCL event: `pending`, `complete`, or `broken` (a
completion query on it fails with a device error). -/
inductive EvState where
  | pending
  | complete
  | broken
  deriving DecidableEq, Repr

/-- State of the oneshot channel belonging to one queue request:
`waiting` (pushed, grant not yet sent), `fired` (grant sent), `closed`
(the receiver was dropped). -/
inductive ChanState where
  | waiting
  | fired
  | closed
  deriving DecidableEq, Repr

/-- The exclusion state of the qutex: whether the lock is currently held,
and the FIFO queue of pending request ids. -/
structure QutexState where
  held : Bool
  queue : List Nat
  deriving DecidableEq, Repr

/-- Global system state: the event store (events are indices into it),
registered unpark callbacks, the oneshot channels of issued requests
(requests are indices into it), the qutex, and the protected vector. -/
structure Sys where
  events : List EvState
  callbacks : List Nat
  channels : List ChanState
  qutex : QutexState
  buffer : List Nat
  deriving DecidableEq, Repr

/-- Modelled from the spec: `CompletionSignal::is_complete`
(`Event::is_complete`) — queries an event's completion status; fails
with a device query error when the underlying device channel is broken. -/
def isComplete (s : Sys) (e : Nat) : Except String Bool :=
  match s.events.get? e with
  | some EvState.pending => Except.ok false
  | some EvState.complete => Except.ok true
  | some EvState.broken => Except.error "Device query error."
  | none => Except.error "Invalid event."

/-- Modelled from the spec: `CompletionSignal::register_wakeup`
(`Event::set_unpark_callback`) — records a wakeup callback on the event. -/
def setUnparkCallback (s : Sys) (e : Nat) : Except String Sys :=
  if e < s.events.length then
    Except.ok { s with callbacks := s.callbacks ++ [e] }
  else
    Except.error "Invalid event."

/-- Modelled from the spec: `CompletionSignal::force_complete`
(`Event::set_complete`) — marks a host-triggerable event complete. -/
def setComplete (s : Sys) (e : Nat) : Except String Sys :=
  if e < s.events.length then
    Except.ok { s with events := s.events.set e EvState.complete }
  else
    Except.error "Invalid event."

/-- Modelled from the spec: `CompletionSignal::new_host_triggerable`
(`Event::user`) — creates a fresh host-triggerable event in the pending
state; creation fails when the context is invalid (`ctx = false`). -/
def eventUser (ctx : Bool) (s : Sys) : Except String (Nat × Sys) :=
  if ctx then
    Except.ok (s.events.length, { s with events := s.events ++ [EvState.pending] })
  else
    Except.error "Event creation failed."

/-- Modelled from the spec: one pass of the queue-advance step — pops
requests whose receiver was dropped (their notification cannot be
delivered), fires the first live one and marks the resource held;
leaves the resource free when no live request remains. -/
def advanceFire : List Nat → List ChanState → List Nat × List ChanState × Bool
  | [], chans => ([], chans, false)
  | r :: rest, chans =>
    match chans.get? r with
    | some ChanState.waiting => (rest, chans.set r ChanState.fired, true)
    | _ => advanceFire rest chans

/-- Modelled from the spec: `Qutex::process_queue` (queue-advance): a
no-op when the resource is already held; otherwise grants the first
live queued request, if any. -/
def processQueue (s : Sys) : Sys :=
  if s.qutex.held then s
  else
    let t := advanceFire s.qutex.queue s.channels
    { s with qutex := { held := t.2.2, queue := t.1 }, channels := t.2.1 }

/-- Modelled from the spec: `Qutex::unlock` — releases the resource (an
error when it was not held) and advances the queue. -/
def unlock (s : Sys) : Except String Sys :=
  if s.qutex.held then
    Except.ok (processQueue { s with qutex := { held := false, queue := s.qutex.queue } })
  else
    Except.error "Qutex::unlock: not locked."

/-- Polling this request's oneshot receiver: `ok true` is
`Async::Ready`, `ok false` is `Async::NotReady`; an error means the
sender was dropped without firing. -/
def rxPoll (s : Sys) (r : Nat) : Except String Bool :=
  match s.channels.get? r with
  | some ChanState.waiting => Except.ok false
  | some ChanState.fired => Except.ok true
  | _ => Except.error "oneshot canceled"

/-- `Stage` from `rw_vec.rs`. -/
inductive Stage where
  | Marker
  | Qutex
  | Command
  deriving DecidableEq, Repr

/-- `RwGuard` from `rw_vec.rs`: holds the (cloned) `RwVec` reference
taken out of the `PendingRwGuard`. -/
structure RwGuard where
  rw_vec : Unit
  deriving DecidableEq, Repr

/-- `PendingRwGuard` from `rw_vec.rs`.  `rx` is the index of this
request's oneshot channel; the event fields are indices into the event
store. -/
structure PendingRwGuard where
  rw_vec : Option Unit
  rx : Nat
  wait_event : Option Nat
  trigger_event : Nat
  command_event : Option Nat
  stage : Stage
  len : Nat
  deriving DecidableEq, Repr

/-- `futures::Async` poll outcome. -/
inductive Poll where
  | notReady
  | ready (g : RwGuard)
  deriving DecidableEq, Repr

/-- `PendingRwGuard::set_command_event`. -/
def set_command_event (p : PendingRwGuard) (e : Nat) : PendingRwGuard :=
  { p with command_event := some e }

/-- `PendingRwGuard::poll_command` from `rw_vec.rs`: fails when no
command event was set; otherwise waits for the command event and, once
it is complete, takes the `RwVec` reference out and returns the
`RwGuard`. -/
def poll_command (p : PendingRwGuard) (s : Sys) :
    Except String Poll × PendingRwGuard × Sys :=
  match p.command_event with
  | some ce =>
    match isComplete s ce with
    | Except.error e => (Except.error e, p, s)
    | Except.ok false =>
      match setUnparkCallback s ce with
      | Except.error e => (Except.error e, p, s)
      | Except.ok s' => (Except.ok Poll.notReady, p, s')
    | Except.ok true =>
      (Except.ok (Poll.ready { rw_vec := () }), { p with rw_vec := none }, s)
  | none => (Except.error "PendingRwGuard::poll_command: No command event set.", p, s)

/-- `PendingRwGuard::poll_qutex` from `rw_vec.rs`: advances the queue,
then checks the oneshot receiver; on a grant it force-completes the
trigger event, moves to the `Command` stage and polls the command event
within the same call. -/
def poll_qutex (p : PendingRwGuard) (s : Sys) :
    Except String Poll × PendingRwGuard × Sys :=
  let s1 := processQueue s
  match rxPoll s1 p.rx with
  | Except.ok true =>
    match setComplete s1 p.trigger_event with
    | Except.error e => (Except.error e, p, s1)
    | Except.ok s2 => poll_command { p with stage := Stage.Command } s2
  | Except.ok false => (Except.ok Poll.notReady, p, s1)
  | Except.error e => (Except.error e, p, s1)

/-- `PendingRwGuard::poll_marker` from `rw_vec.rs`: if a wait event is
present and not complete, registers a wakeup callback and yields
not-ready; otherwise moves to the `Qutex` stage and polls the qutex
within the same call. -/
def poll_marker (p : PendingRwGuard) (s : Sys) :
    Except String Poll × PendingRwGuard × Sys :=
  match p.wait_event with
  | some we =>
    match isComplete s we with
    | Except.error e => (Except.error e, p, s)
    | Except.ok false =>
      match setUnparkCallback s we with
      | Except.error e => (Except.error e, p, s)
      | Except.ok s' => (Except.ok Poll.notReady, p, s')
    | Except.ok true => poll_qutex { p with stage := Stage.Qutex } s
  | none => poll_qutex { p with stage := Stage.Qutex } s

/-- `impl Future for PendingRwGuard`: dispatch on the stage while the
`RwVec` reference is still present; fail once it was taken out. -/
def PendingRwGuard.poll (p : PendingRwGuard) (s : Sys) :
    Except String Poll × PendingRwGuard × Sys :=
  match p.rw_vec with
  | some _ =>
    match p.stage with
    | Stage.Marker => poll_marker p s
    | Stage.Qutex => poll_qutex p s
    | Stage.Command => poll_command p s
  | none => (Except.error "PendingRwGuard::poll: Task already completed.", p, s)

/-- `RwVec::lock_pending_event` from `rw_vec.rs`: creates a oneshot
channel, pushes the request onto the qutex queue, then builds the
`PendingRwGuard` (`PendingRwGuard::new` creates the trigger event and
reads the vector length).  When building fails, the error is returned,
the already-pushed request stays queued and its receiver is dropped. -/
def RwVec.lock_pending_event (ctx : Bool) (wait_event : Option Nat) (s : Sys) :
    Except String PendingRwGuard × Sys :=
  let rid := s.channels.length
  let s1 : Sys := { s with channels := s.channels ++ [ChanState.waiting],
                           qutex := { held := s.qutex.held, queue := s.qutex.queue ++ [rid] } }
  match eventUser ctx s1 with
  | Except.error e =>
    (Except.error e, { s1 with channels := s1.channels.set rid ChanState.closed })
  | Except.ok ts =>
    (Except.ok { rw_vec := some (), rx := rid, wait_event := wait_event,
                 trigger_event := ts.1, command_event := none, stage := Stage.Marker,
                 len := ts.2.buffer.length }, ts.2)

/-- Default drop of a `PendingRwGuard` (`rw_vec.rs` defines no `Drop`
impl for it): the only observable effect is that the oneshot receiver is
dropped, closing the channel; nothing is released. -/
def PendingRwGuard.drop (p : PendingRwGuard) (s : Sys) : Sys :=
  { s with channels := s.channels.set p.rx ChanState.closed }

/-- `impl Drop for RwGuard` from `rw_vec.rs`: unlocks the qutex. -/
def RwGuard.drop (_g : RwGuard) (s : Sys) : Except String Sys :=
  unlock s

/-- State after `n` consecutive polls of a request. -/
def pollN : Nat → PendingRwGuard → Sys → PendingRwGuard × Sys
  | 0, p, s => (p, s)
  | n + 1, p, s =>
    let r := PendingRwGuard.poll p s
    pollN n r.2.1 r.2.2

/-- The trigger-causality invariant: the trigger event is a valid
pending event while the request has not passed the `Qutex` stage, and a
valid complete event once it has. -/
def triggerInv (p : PendingRwGuard) (s : Sys) : Prop :=
  s.events.get? p.trigger_event =
    some (if p.stage = Stage.Command then EvState.complete else EvState.pending)

/-- Initial empty system: no events, no requests, free lock, empty vector. -/
def sysEmpty : Sys :=
  { events := [], callbacks := [], channels := [],
    qutex := { held := false, queue := [] }, buffer := [] }

/-- A placeholder guard used to destructure `Except` results of concrete runs. -/
def dummyGuard : PendingRwGuard :=
  { rw_vec := none, rx := 0, wait_event := none, trigger_event := 0,
    command_event := none, stage := Stage.Marker, len := 0 }

/-- Concrete run: the first of two requests issued on an empty `RwVec`. -/
def runA1 := RwVec.lock_pending_event true none sysEmpty

/-- The first request of the concrete run. -/
def runP1 : PendingRwGuard :=
  match runA1.1 with
  | Except.ok p => p
  | Except.error _ => dummyGuard

/-- Concrete run: a second request issued behind the first. -/
def runA2 := RwVec.lock_pending_event true none runA1.2

/-- System state with both requests queued. -/
def runS2 : Sys := runA2.2

/-- First poll of the first request: it wins the grant, then errors on
the missing command event. -/
def runPoll1 := PendingRwGuard.poll runP1 runS2

/-- The first request after its first poll (grant received, stage `Command`). -/
def runP1x : PendingRwGuard := runPoll1.2.1

/-- System state after the first poll (slot held, second request queued). -/
def runS3 : Sys := runPoll1.2.2

/-- The first request is dropped after the grant, before any `RwGuard`
was built. -/
def runS4 : Sys := PendingRwGuard.drop runP1x runS3

/-- A system holding one pending event, to be used as a wait event. -/
def sysWait : Sys :=
  { events := [EvState.pending], callbacks := [], channels := [],
    qutex := { held := false, queue := [] }, buffer := [] }

/-- Concrete run: a request whose wait event never completes. -/
def runW := RwVec.lock_pending_event true (some 0) sysWait

/-- The wait-blocked request of the concrete run. -/
def runWP : PendingRwGuard :=
  match runW.1 with
  | Except.ok p => p
  | Except.error _ => dummyGuard

/-- A request sitting in the `Qutex` stage at the head of the queue. -/
def qutexP : PendingRwGuard :=
  { rw_vec := some (), rx := 0, wait_event := none, trigger_event := 0,
    command_event := none, stage := Stage.Qutex, len := 0 }

/-- The system state for `qutexP`: its trigger event pending, its channel
queued and not yet granted. -/
def qutexS : Sys :=
  { events := [EvState.pending], callbacks := [], channels := [ChanState.waiting],
    qutex := { held := false, queue := [0] }, buffer := [] }

/-- `qutexS` after `qutexP` won the grant and completed its trigger. -/
def qutexS2 : Sys :=
  { events := [EvState.complete], callbacks := [], channels := [ChanState.fired],
    qutex := { held := true, queue := [] }, buffer := [] }

/-- A request in the `Command` stage with no command event attached. -/
def cmdlessP : PendingRwGuard :=
  { rw_vec := some (), rx := 0, wait_event := none, trigger_event := 0,
    command_event := none, stage := Stage.Command, len := 0 }

/-- A free system whose queue head request was dropped before its grant
(channel closed), with a live request waiting behind it. -/
def skipS : Sys :=
  { events := [], callbacks := [], channels := [ChanState.closed, ChanState.waiting],
    qutex := { held := false, queue := [0, 1] }, buffer := [] }

/-- A system whose exclusion slot is held. -/
def heldS : Sys :=
  { events := [EvState.complete], callbacks := [], channels := [ChanState.fired],
    qutex := { held := true, queue := [] }, buffer := [] }

/-- Outcome of running a Rust function that may return normally, return
an error, or panic. -/
inductive RunResult (α : Type) where
  | ok (a : α)
  | err (e : String)
  | panic
  deriving DecidableEq, Repr

/-- `Platform::first` from `platform.rs`, parametrised by the results of
`core::get_platform_ids` and `core::default_platform`: with
`ignore_env_var = true` it indexes the platform list at 0, which panics
when the list is empty. -/
def Platform.first (ignore_env_var : Bool)
    (get_platform_ids : Except String (List Nat))
    (default_platform : Except String Nat) : RunResult Nat :=
  if ignore_env_var then
    match get_platform_ids with
    | Except.error e => RunResult.err e
    | Except.ok ids =>
      match ids.get? 0 with
      | some p => RunResult.ok p
      | none => RunResult.panic
  else
    match default_platform with
    | Except.error e => RunResult.err e
    | Except.ok p => RunResult.ok p

/-! ## Helper lemmas -/

theorem getq_some_lt {α : Type} {l : List α} {n : Nat} {a : α} (h : l.get? n = some a) :
    n < l.length :=
  (List.get?_eq_some.mp h).1

theorem getq_set_self {α : Type} {l : List α} {n : Nat} (a : α) (h : n < l.length) :
    (l.set n a).get? n = some a := by
  induction l generalizing n with
  | nil => simp at h
  | cons x xs ih =>
    cases n with
    | zero => rfl
    | succ m =>
      have hm : m < xs.length := Nat.lt_of_succ_lt_succ h
      simpa [List.set, List.get?] using ih hm

theorem processQueue_events (s : Sys) : (processQueue s).events = s.events := by
  unfold processQueue
  split
  · rfl
  · rfl

theorem processQueue_buffer (s : Sys) : (processQueue s).buffer = s.buffer := by
  unfold processQueue
  split
  · rfl
  · rfl

theorem processQueue_of_held (s : Sys) (h : s.qutex.held = true) : processQueue s = s := by
  unfold processQueue
  simp [h]

theorem setComplete_ok_shape {s s2 : Sys} {e : Nat} (h : setComplete s e = Except.ok s2) :
    s2 = { s with events := s.events.set e EvState.complete } := by
  unfold setComplete at h
  split at h
  · injection h with h2
    exact h2.symm
  · exact Except.noConfusion h

theorem setComplete_ok_lt {s s2 : Sys} {e : Nat} (h : setComplete s e = Except.ok s2) :
    e < s.events.length := by
  unfold setComplete at h
  split at h
  · assumption
  · exact Except.noConfusion h

theorem poll_command_sys (p : PendingRwGuard) (s : Sys) :
    ((poll_command p s).2.2).events = s.events ∧ ((poll_command p s).2.2).qutex = s.qutex ∧
    ((poll_command p s).2.2).buffer = s.buffer ∧ ((poll_command p s).2.2).channels = s.channels := by
  cases hce : p.command_event with
  | none => simp [poll_command, hce]
  | some ce =>
    cases hic : isComplete s ce with
    | error e => simp [poll_command, hce, hic]
    | ok b =>
      cases b with
      | false =>
        by_cases hlt : ce < s.events.length
        · simp [poll_command, hce, hic, setUnparkCallback, hlt]
        · simp [poll_command, hce, hic, setUnparkCallback, hlt]
      | true => simp [poll_command, hce, hic]

theorem poll_command_cases (p : PendingRwGuard) (s : Sys) :
    ((poll_command p s).2.1 = p ∧ ∀ g, (poll_command p s).1 ≠ Except.ok (Poll.ready g)) ∨
    ((poll_command p s).2.1 = { p with rw_vec := none } ∧
      (poll_command p s).1 = Except.ok (Poll.ready { rw_vec := () })) := by
  cases hce : p.command_event with
  | none => simp [poll_command, hce]
  | some ce =>
    cases hic : isComplete s ce with
    | error e => simp [poll_command, hce, hic]
    | ok b =>
      cases b with
      | false =>
        by_cases hlt : ce < s.events.length
        · simp [poll_command, hce, hic, setUnparkCallback, hlt]
        · simp [poll_command, hce, hic, setUnparkCallback, hlt]
      | true => simp [poll_command, hce, hic]

theorem poll_qutex_sys (p : PendingRwGuard) (s : Sys) :
    ((poll_qutex p s).2.2).buffer = s.buffer ∧
    (s.qutex.held = true → ((poll_qutex p s).2.2).qutex = s.qutex) := by
  cases hrx : rxPoll (processQueue s) p.rx with
  | error e =>
    constructor
    · simp [poll_qutex, hrx, processQueue_buffer]
    · intro hh
      have hpq := processQueue_of_held s hh
      rw [hpq] at hrx
      simp [poll_qutex, hpq, hrx]
  | ok b =>
    cases b with
    | false =>
      constructor
      · simp [poll_qutex, hrx, processQueue_buffer]
      · intro hh
        have hpq := processQueue_of_held s hh
        rw [hpq] at hrx
        simp [poll_qutex, hpq, hrx]
    | true =>
      cases hsc : setComplete (processQueue s) p.trigger_event with
      | error e =>
        constructor
        · simp [poll_qutex, hrx, hsc, processQueue_buffer]
        · intro hh
          have hpq := processQueue_of_held s hh
          rw [hpq] at hrx hsc
          simp [poll_qutex, hpq, hrx, hsc]
      | ok s2 =>
        have hs2 := setComplete_ok_shape hsc
        have hpc := poll_command_sys { p with stage := Stage.Command } s2
        have heq : ((poll_qutex p s).2.2) = (poll_command { p with stage := Stage.Command } s2).2.2 := by
          simp [poll_qutex, hrx, hsc]
        constructor
        · rw [heq, hpc.2.2.1, hs2]
          simp [processQueue_buffer]
        · intro hh
          rw [heq, hpc.2.1, hs2]
          simp [processQueue_of_held s hh]

theorem poll_marker_sys (p : PendingRwGuard) (s : Sys) :
    ((poll_marker p s).2.2).buffer = s.buffer ∧
    (s.qutex.held = true → ((poll_marker p s).2.2).qutex = s.qutex) := by
  cases hwe : p.wait_event with
  | none =>
    simpa [poll_marker, hwe] using poll_qutex_sys { p with stage := Stage.Qutex } s
  | some we =>
    cases hic : isComplete s we with
    | error e => simp [poll_marker, hwe, hic]
    | ok b =>
      cases b with
      | false =>
        by_cases hlt : we < s.events.length
        · simp [poll_marker, hwe, hic, setUnparkCallback, hlt]
        · simp [poll_marker, hwe, hic, setUnparkCallback, hlt]
      | true =>
        simpa [poll_marker, hwe, hic] using poll_qutex_sys { p with stage := Stage.Qutex } s

theorem poll_sys (p : PendingRwGuard) (s : Sys) :
    ((PendingRwGuard.poll p s).2.2).buffer = s.buffer ∧
    (s.qutex.held = true → ((PendingRwGuard.poll p s).2.2).qutex = s.qutex) := by
  cases hrv : p.rw_vec with
  | none => simp [PendingRwGuard.poll, hrv]
  | some u =>
    cases hst : p.stage with
    | Marker => simpa [PendingRwGuard.poll, hrv, hst] using poll_marker_sys p s
    | Qutex => simpa [PendingRwGuard.poll, hrv, hst] using poll_qutex_sys p s
    | Command =>
      have h := poll_command_sys p s
      constructor
      · simp [PendingRwGuard.poll, hrv, hst, h.2.2.1]
      · intro hh
        simp [PendingRwGuard.poll, hrv, hst, h.2.1]

theorem poll_qutex_cases (p : PendingRwGuard) (s : Sys) :
    (((poll_qutex p s).2.1).rw_vec = p.rw_vec ∧
      ∀ g, (poll_qutex p s).1 ≠ Except.ok (Poll.ready g)) ∨
    (((poll_qutex p s).2.1).rw_vec = none ∧
      (poll_qutex p s).1 = Except.ok (Poll.ready { rw_vec := () })) := by
  cases hrx : rxPoll (processQueue s) p.rx with
  | error e => simp [poll_qutex, hrx]
  | ok b =>
    cases b with
    | false => simp [poll_qutex, hrx]
    | true =>
      cases hsc : setComplete (processQueue s) p.trigger_event with
      | error e => simp [poll_qutex, hrx, hsc]
      | ok s2 =>
        have heq1 : (poll_qutex p s).2.1 = (poll_command { p with stage := Stage.Command } s2).2.1 := by
          simp [poll_qutex, hrx, hsc]
        have heq2 : (poll_qutex p s).1 = (poll_command { p with stage := Stage.Command } s2).1 := by
          simp [poll_qutex, hrx, hsc]
        rcases poll_command_cases { p with stage := Stage.Command } s2 with ⟨hp, hr⟩ | ⟨hp, hr⟩
        · left
          rw [heq1, heq2, hp]
          exact ⟨rfl, hr⟩
        · right
          rw [heq1, heq2, hp]
          exact ⟨rfl, hr⟩

theorem poll_marker_cases (p : PendingRwGuard) (s : Sys) :
    (((poll_marker p s).2.1).rw_vec = p.rw_vec ∧
      ∀ g, (poll_marker p s).1 ≠ Except.ok (Poll.ready g)) ∨
    (((poll_marker p s).2.1).rw_vec = none ∧
      (poll_marker p s).1 = Except.ok (Poll.ready { rw_vec := () })) := by
  cases hwe : p.wait_event with
  | none =>
    rcases poll_qutex_cases { p with stage := Stage.Qutex } s with ⟨hp, hr⟩ | ⟨hp, hr⟩
    · left
      constructor
      · simpa [poll_marker, hwe] using hp
      · simpa [poll_marker, hwe] using hr
    · right
      constructor
      · simpa [poll_marker, hwe] using hp
      · simpa [poll_marker, hwe] using hr
  | some we =>
    cases hic : isComplete s we with
    | error e => simp [poll_marker, hwe, hic]
    | ok b =>
      cases b with
      | false =>
        by_cases hlt : we < s.events.length
        · simp [poll_marker, hwe, hic, setUnparkCallback, hlt]
        · simp [poll_marker, hwe, hic, setUnparkCallback, hlt]
      | true =>
        rcases poll_qutex_cases { p with stage := Stage.Qutex } s with ⟨hp, hr⟩ | ⟨hp, hr⟩
        · left
          constructor
          · simpa [poll_marker, hwe, hic] using hp
          · simpa [poll_marker, hwe, hic] using hr
        · right
          constructor
          · simpa [poll_marker, hwe, hic] using hp
          · simpa [poll_marker, hwe, hic] using hr

theorem poll_cases (p : PendingRwGuard) (s : Sys) :
    (((PendingRwGuard.poll p s).2.1).rw_vec = p.rw_vec ∧
      ∀ g, (PendingRwGuard.poll p s).1 ≠ Except.ok (Poll.ready g)) ∨
    (((PendingRwGuard.poll p s).2.1).rw_vec = none ∧
      (PendingRwGuard.poll p s).1 = Except.ok (Poll.ready { rw_vec := () })) := by
  cases hrv : p.rw_vec with
  | none => simp [PendingRwGuard.poll, hrv]
  | some u =>
    cases hst : p.stage with
    | Marker =>
      rcases poll_marker_cases p s with ⟨hp, hr⟩ | ⟨hp, hr⟩
      · left
        exact ⟨by simpa [PendingRwGuard.poll, hrv, hst] using hp,
               by simpa [PendingRwGuard.poll, hrv, hst] using hr⟩
      · right
        exact ⟨by simpa [PendingRwGuard.poll, hrv, hst] using hp,
               by simpa [PendingRwGuard.poll, hrv, hst] using hr⟩
    | Qutex =>
      rcases poll_qutex_cases p s with ⟨hp, hr⟩ | ⟨hp, hr⟩
      · left
        exact ⟨by simpa [PendingRwGuard.poll, hrv, hst] using hp,
               by simpa [PendingRwGuard.poll, hrv, hst] using hr⟩
      · right
        exact ⟨by simpa [PendingRwGuard.poll, hrv, hst] using hp,
               by simpa [PendingRwGuard.poll, hrv, hst] using hr⟩
    | Command =>
      rcases poll_command_cases p s with ⟨hp, hr⟩ | ⟨hp, hr⟩
      · left
        constructor
        · simp [PendingRwGuard.poll, hrv, hst, hp]
        · simpa [PendingRwGuard.poll, hrv, hst] using hr
      · right
        constructor
        · simp [PendingRwGuard.poll, hrv, hst, hp]
        · simpa [PendingRwGuard.poll, hrv, hst] using hr

theorem poll_command_triggerInv (p : PendingRwGuard) (s : Sys) (h : triggerInv p s) :
    triggerInv (poll_command p s).2.1 (poll_command p s).2.2 := by
  have hsys := (poll_command_sys p s).1
  rcases poll_command_cases p s with ⟨hp, _⟩ | ⟨hp, _⟩
  · unfold triggerInv at h ⊢
    rw [hp, hsys]
    exact h
  · unfold triggerInv at h ⊢
    rw [hp, hsys]
    simpa using h

theorem poll_qutex_triggerInv (p : PendingRwGuard) (s : Sys) (hst : p.stage = Stage.Qutex)
    (h : triggerInv p s) :
    triggerInv (poll_qutex p s).2.1 (poll_qutex p s).2.2 := by
  have hpend : (processQueue s).events.get? p.trigger_event = some EvState.pending := by
    rw [processQueue_events]
    unfold triggerInv at h
    simpa [hst] using h
  cases hrx : rxPoll (processQueue s) p.rx with
  | error e =>
    unfold triggerInv at h ⊢
    rw [show (poll_qutex p s).2.1 = p from by simp [poll_qutex, hrx],
        show (poll_qutex p s).2.2 = processQueue s from by simp [poll_qutex, hrx],
        processQueue_events]
    exact h
  | ok b =>
    cases b with
    | false =>
      unfold triggerInv at h ⊢
      rw [show (poll_qutex p s).2.1 = p from by simp [poll_qutex, hrx],
          show (poll_qutex p s).2.2 = processQueue s from by simp [poll_qutex, hrx],
          processQueue_events]
      exact h
    | true =>
      have hlt : p.trigger_event < (processQueue s).events.length := getq_some_lt hpend
      have hsc : setComplete (processQueue s) p.trigger_event = Except.ok
          { processQueue s with
            events := (processQueue s).events.set p.trigger_event EvState.complete } := by
        simp [setComplete, hlt]
      have heqq : poll_qutex p s = poll_command { p with stage := Stage.Command }
          { processQueue s with
            events := (processQueue s).events.set p.trigger_event EvState.complete } := by
        simp [poll_qutex, hrx, hsc]
      rw [heqq]
      apply poll_command_triggerInv
      unfold triggerInv
      simpa using getq_set_self EvState.complete hlt

theorem poll_marker_triggerInv (p : PendingRwGuard) (s : Sys) (hst : p.stage = Stage.Marker)
    (h : triggerInv p s) :
    triggerInv (poll_marker p s).2.1 (poll_marker p s).2.2 := by
  have hq : triggerInv { p with stage := Stage.Qutex } s := by
    unfold triggerInv at h ⊢
    simpa [hst] using h
  cases hwe : p.wait_event with
  | none =>
    simpa [poll_marker, hwe] using poll_qutex_triggerInv { p with stage := Stage.Qutex } s rfl hq
  | some we =>
    cases hic : isComplete s we with
    | error e => simpa [poll_marker, hwe, hic] using h
    | ok b =>
      cases b with
      | false =>
        by_cases hlt : we < s.events.length
        · have hscb : setUnparkCallback s we =
              Except.ok { s with callbacks := s.callbacks ++ [we] } := by
            unfold setUnparkCallback
            rw [if_pos hlt]
          unfold triggerInv at h ⊢
          rw [show (poll_marker p s).2.1 = p from by simp [poll_marker, hwe, hic, hscb],
              show (poll_marker p s).2.2 = { s with callbacks := s.callbacks ++ [we] } from by
                simp [poll_marker, hwe, hic, hscb]]
          exact h
        · have hscb : setUnparkCallback s we = Except.error "Invalid event." := by
            unfold setUnparkCallback
            rw [if_neg hlt]
          unfold triggerInv at h ⊢
          rw [show (poll_marker p s).2.1 = p from by simp [poll_marker, hwe, hic, hscb],
              show (poll_marker p s).2.2 = s from by simp [poll_marker, hwe, hic, hscb]]
          exact h
      | true =>
        simpa [poll_marker, hwe, hic] using
          poll_qutex_triggerInv { p with stage := Stage.Qutex } s rfl hq

theorem poll_triggerInv (p : PendingRwGuard) (s : Sys) (h : triggerInv p s) :
    triggerInv (PendingRwGuard.poll p s).2.1 (PendingRwGuard.poll p s).2.2 := by
  cases hrv : p.rw_vec with
  | none => simpa [PendingRwGuard.poll, hrv] using h
  | some u =>
    cases hst : p.stage with
    | Marker => simpa [PendingRwGuard.poll, hrv, hst] using poll_marker_triggerInv p s hst h
    | Qutex => simpa [PendingRwGuard.poll, hrv, hst] using poll_qutex_triggerInv p s hst h
    | Command => simpa [PendingRwGuard.poll, hrv, hst] using poll_command_triggerInv p s h

theorem marker_pending_step (p : PendingRwGuard) (s : Sys) (w : Nat)
    (hrv : p.rw_vec = some ()) (hst : p.stage = Stage.Marker)
    (hw : p.wait_event = some w) (hpend : s.events.get? w = some EvState.pending) :
    PendingRwGuard.poll p s =
      (Except.ok Poll.notReady, p, { s with callbacks := s.callbacks ++ [w] }) := by
  have hlt : w < s.events.length := getq_some_lt hpend
  have hic : isComplete s w = Except.ok false := by
    unfold isComplete
    rw [hpend]
  have hscb : setUnparkCallback s w = Except.ok { s with callbacks := s.callbacks ++ [w] } := by
    unfold setUnparkCallback
    rw [if_pos hlt]
  simp [PendingRwGuard.poll, hrv, hst, poll_marker, hw, hic, hscb]

theorem pollN_pending (p : PendingRwGuard) (w : Nat)
    (hrv : p.rw_vec = some ()) (hst : p.stage = Stage.Marker) (hw : p.wait_event = some w) :
    ∀ (n : Nat) (s : Sys), s.events.get? w = some EvState.pending →
      (pollN n p s).1 = p ∧ (pollN n p s).2.events = s.events ∧
      (pollN n p s).2.qutex = s.qutex := by
  intro n
  induction n with
  | zero =>
    intro s _
    exact ⟨rfl, rfl, rfl⟩
  | succ m ih =>
    intro s hpend
    have hstep := marker_pending_step p s w hrv hst hw hpend
    have heq : pollN (m + 1) p s = pollN m p { s with callbacks := s.callbacks ++ [w] } := by
      simp [pollN, hstep]
    have ihx := ih { s with callbacks := s.callbacks ++ [w] } hpend
    exact ⟨by rw [heq]; exact ihx.1, by rw [heq]; exact ihx.2.1, by rw [heq]; exact ihx.2.2⟩

/-! ## Claim theorems -/

/-- C1 counterexample: in the concrete run the first request received the
queue grant (its channel fired, stage `Command`) and was then dropped
without an `RwGuard` ever being built; the exclusion slot stays held, a
further queue-advance is a no-op, and the second, still-waiting request
is never granted.  `PendingRwGuard` has no `Drop` impl, so
release-on-all-paths fails for it after the grant. -/
theorem release_on_all_paths_counterexample :
    runP1x.stage = Stage.Command ∧
    runS3.channels.get? runP1x.rx = some ChanState.fired ∧
    runS4.qutex.held = true ∧
    processQueue runS4 = runS4 ∧
    runS4.channels.get? 1 = some ChanState.waiting := by
  decide

/-- C1 (amended): dropping an `RwGuard` releases the exclusion slot and
advances the queue on every exit path, and a `PendingRwGuard` dropped
before its grant was fired merely closes its channel, which queue-advance
skips to grant the next live waiter; but — per the counterexample — a
`PendingRwGuard` dropped after the grant leaves the slot held with no
live holder. -/
theorem rwguard_drop_releases :
    (∀ (g : RwGuard) (s : Sys), s.qutex.held = true →
      RwGuard.drop g s =
        Except.ok (processQueue { s with qutex := { held := false, queue := s.qutex.queue } })) ∧
    (∀ (s : Sys) (r : Nat) (rest : List Nat), s.qutex.held = false →
      s.qutex.queue = r :: rest → s.channels.get? r = some ChanState.waiting →
      processQueue s = { s with
        qutex := { held := true, queue := rest },
        channels := s.channels.set r ChanState.fired }) ∧
    (∀ (s : Sys) (r r2 : Nat) (rest : List Nat), s.qutex.held = false →
      s.qutex.queue = r :: r2 :: rest → s.channels.get? r = some ChanState.closed →
      s.channels.get? r2 = some ChanState.waiting →
      processQueue s = { s with
        qutex := { held := true, queue := rest },
        channels := s.channels.set r2 ChanState.fired }) := by
  refine ⟨?_, ?_, ?_⟩
  · intro g s hh
    simp [RwGuard.drop, unlock, hh]
  · intro s r rest hh hq hr
    simp only [List.get?_eq_getElem?] at hr
    simp [processQueue, hh, hq, advanceFire, hr]
  · intro s r r2 rest hh hq hr hr2
    simp only [List.get?_eq_getElem?] at hr hr2
    simp [processQueue, hh, hq, advanceFire, hr, hr2]

/-- C1 witness: the amended release properties instantiated on concrete
states. -/
theorem rwguard_drop_releases_witness :
    RwGuard.drop { rw_vec := () } heldS =
      Except.ok (processQueue { heldS with
        qutex := { held := false, queue := heldS.qutex.queue } }) ∧
    processQueue qutexS = { qutexS with
      qutex := { held := true, queue := [] },
      channels := qutexS.channels.set 0 ChanState.fired } ∧
    processQueue skipS = { skipS with
      qutex := { held := true, queue := [] },
      channels := skipS.channels.set 1 ChanState.fired } :=
  ⟨rwguard_drop_releases.1 { rw_vec := () } heldS rfl,
   rwguard_drop_releases.2.1 qutexS 0 [] rfl rfl rfl,
   rwguard_drop_releases.2.2 skipS 0 1 [] rfl rfl rfl rfl⟩

/-- C2 counterexample: in the concrete run the first request had received
the grant (channel fired, slot held) when resolution failed with the
missing-command-event error — and the exclusion slot was not released
before the error was propagated: it is still held afterwards. -/
theorem error_release_counterexample :
    runPoll1.1 = Except.error "PendingRwGuard::poll_command: No command event set." ∧
    runS3.channels.get? 0 = some ChanState.fired ∧
    runP1x.stage = Stage.Command ∧
    runS3.qutex.held = true := by
  decide

/-- C2 (amended): a poll that resolves with an error leaves the shared
buffer untouched and keeps hold of the `RwVec` reference, but performs no
release: if the exclusion slot was held before the poll, it is still held
after the error is propagated. -/
theorem error_atomicity (p : PendingRwGuard) (s : Sys) (m : String)
    (herr : (PendingRwGuard.poll p s).1 = Except.error m) :
    ((PendingRwGuard.poll p s).2.2).buffer = s.buffer ∧
    (s.qutex.held = true → ((PendingRwGuard.poll p s).2.2).qutex.held = true) ∧
    ((PendingRwGuard.poll p s).2.1).rw_vec = p.rw_vec := by
  refine ⟨(poll_sys p s).1, ?_, ?_⟩
  · intro hh
    rw [(poll_sys p s).2 hh]
    exact hh
  · rcases poll_cases p s with ⟨hp, _⟩ | ⟨_, hr⟩
    · exact hp
    · rw [herr] at hr
      exact Except.noConfusion hr

/-- C2 witness: error atomicity applied to a concrete poll that fails
with the missing-command-event error while the slot is held. -/
theorem error_atomicity_witness :
    ((PendingRwGuard.poll cmdlessP heldS).2.2).buffer = heldS.buffer ∧
    (heldS.qutex.held = true → ((PendingRwGuard.poll cmdlessP heldS).2.2).qutex.held = true) ∧
    ((PendingRwGuard.poll cmdlessP heldS).2.1).rw_vec = cmdlessP.rw_vec :=
  error_atomicity cmdlessP heldS "PendingRwGuard::poll_command: No command event set." (by decide)

/-- C3 counterexample: when creating the trigger event fails,
`lock_pending_event` returns an error — refuting "always succeeds and
never returns an error". -/
theorem lock_pending_event_error_counterexample :
    RwVec.lock_pending_event false none sysEmpty =
      (Except.error "Event creation failed.",
       { events := [], callbacks := [], channels := [ChanState.closed],
         qutex := { held := false, queue := [0] }, buffer := [] }) := by
  decide

/-- C3 (amended): `lock_pending_event` never blocks (it is a total
function of the state) and, whenever creating the trigger event succeeds,
it returns a fresh `Marker`-stage `PendingRwGuard`, having enqueued the
request; when the creation fails it propagates that error instead. -/
theorem lock_pending_event_ok (s : Sys) (wv : Option Nat) :
    RwVec.lock_pending_event true wv s =
      (Except.ok { rw_vec := some (), rx := s.channels.length, wait_event := wv,
                   trigger_event := s.events.length, command_event := none,
                   stage := Stage.Marker, len := s.buffer.length },
       { events := s.events ++ [EvState.pending], callbacks := s.callbacks,
         channels := s.channels ++ [ChanState.waiting],
         qutex := { held := s.qutex.held, queue := s.qutex.queue ++ [s.channels.length] },
         buffer := s.buffer }) :=
  rfl

/-- C4 counterexample: the wait-blocked concrete request is still in the
`Marker` stage with its wait event pending, yet it already occupies a
slot in the qutex request queue — requests are enqueued at creation, not
after the `Marker` stage is passed. -/
theorem queue_slot_before_wait_counterexample :
    runWP.stage = Stage.Marker ∧
    runWP.wait_event = some 0 ∧
    (runW.2).events.get? 0 = some EvState.pending ∧
    (runW.2).qutex.queue = [runWP.rx] := by
  decide

/-- C4 (amended): polling a request whose wait event never completes
returns `NotReady` on every poll and leaves the request and the queue
state unchanged; however the request occupies its queue slot from
creation: `lock_pending_event` enqueues it before the `Marker` stage is
ever polled. -/
theorem wait_never_complete_not_ready (p : PendingRwGuard) (s : Sys) (w : Nat)
    (hrv : p.rw_vec = some ()) (hst : p.stage = Stage.Marker)
    (hw : p.wait_event = some w) (hpend : s.events.get? w = some EvState.pending) :
    (∀ n : Nat, (pollN n p s).1 = p ∧ (pollN n p s).2.qutex = s.qutex ∧
      (PendingRwGuard.poll (pollN n p s).1 (pollN n p s).2).1 = Except.ok Poll.notReady) ∧
    (∀ (t : Sys) (wv : Option Nat),
      (RwVec.lock_pending_event true wv t).2.qutex.queue =
        t.qutex.queue ++ [t.channels.length]) := by
  constructor
  · intro n
    have h := pollN_pending p w hrv hst hw n s hpend
    refine ⟨h.1, h.2.2, ?_⟩
    rw [h.1]
    have hpend2 : (pollN n p s).2.events.get? w = some EvState.pending := by
      rw [h.2.1]
      exact hpend
    rw [marker_pending_step p (pollN n p s).2 w hrv hst hw hpend2]
  · intro t wv
    rfl

/-- C4 witness: the wait-blocked concrete request still polls `NotReady`
after two polls. -/
theorem wait_never_complete_not_ready_witness :
    (PendingRwGuard.poll (pollN 2 runWP runW.2).1 (pollN 2 runWP runW.2).2).1 =
      Except.ok Poll.notReady :=
  ((wait_never_complete_not_ready runWP runW.2 0 (by decide) (by decide) (by decide)
      (by decide)).1 2).2.2

/-- C5: trigger causality.  (1) At creation the request is in `Marker`
with its trigger event pending; (2) polling preserves the invariant "the
trigger event is complete exactly when the state machine has passed the
`Qutex` stage" — in particular it is never complete during `Marker` or
`Qutex`; (3) when the grant is observed, the trigger event is
force-completed first and only then is the `Command` stage polled, within
the same call and with the trigger already complete. -/
theorem trigger_causality :
    (∀ (s : Sys) (wv : Option Nat) (p : PendingRwGuard),
      (RwVec.lock_pending_event true wv s).1 = Except.ok p →
      p.stage = Stage.Marker ∧ triggerInv p (RwVec.lock_pending_event true wv s).2) ∧
    (∀ (p : PendingRwGuard) (s : Sys), triggerInv p s →
      triggerInv (PendingRwGuard.poll p s).2.1 (PendingRwGuard.poll p s).2.2) ∧
    (∀ (p : PendingRwGuard) (s s2 : Sys), p.stage = Stage.Qutex →
      rxPoll (processQueue s) p.rx = Except.ok true →
      setComplete (processQueue s) p.trigger_event = Except.ok s2 →
      poll_qutex p s = poll_command { p with stage := Stage.Command } s2 ∧
      isComplete s2 p.trigger_event = Except.ok true) := by
  refine ⟨?_, ?_, ?_⟩
  · intro s wv p hok
    have hde : (RwVec.lock_pending_event true wv s).1 = Except.ok
        { rw_vec := some (), rx := s.channels.length, wait_event := wv,
          trigger_event := s.events.length, command_event := none,
          stage := Stage.Marker, len := s.buffer.length } := rfl
    rw [hde] at hok
    injection hok with hp
    subst hp
    refine ⟨rfl, ?_⟩
    show (s.events ++ [EvState.pending]).get? s.events.length =
      some (if Stage.Marker = Stage.Command then EvState.complete else EvState.pending)
    simp [List.getElem?_concat_length]
  · intro p s h
    exact poll_triggerInv p s h
  · intro p s s2 hst hrx hsc
    constructor
    · simp [poll_qutex, hrx, hsc]
    · have hlt := setComplete_ok_lt hsc
      have hshape := setComplete_ok_shape hsc
      subst hshape
      unfold isComplete
      rw [show ({ processQueue s with
          events := (processQueue s).events.set p.trigger_event EvState.complete } : Sys).events =
          (processQueue s).events.set p.trigger_event EvState.complete from rfl,
        getq_set_self EvState.complete hlt]

/-- C5 witness: the three causality properties on concrete runs. -/
theorem trigger_causality_witness :
    (runP1.stage = Stage.Marker ∧
      triggerInv runP1 (RwVec.lock_pending_event true none sysEmpty).2) ∧
    triggerInv (PendingRwGuard.poll runP1 runS2).2.1 (PendingRwGuard.poll runP1 runS2).2.2 ∧
    (poll_qutex qutexP qutexS = poll_command { qutexP with stage := Stage.Command } qutexS2 ∧
      isComplete qutexS2 qutexP.trigger_event = Except.ok true) :=
  ⟨trigger_causality.1 sysEmpty none runP1 (by decide),
   trigger_causality.2.1 runP1 runS2 rfl,
   trigger_causality.2.2 qutexP qutexS qutexS2 (by decide) (by decide) (by decide)⟩

/-- C6 counterexample: the missing-command-event error is not fatal — in
the concrete run, attaching a (complete) command event after the error
and polling again resolves the same request successfully. -/
theorem missing_command_not_fatal_counterexample :
    runPoll1.1 = Except.error "PendingRwGuard::poll_command: No command event set." ∧
    (PendingRwGuard.poll (set_command_event runP1x 0) runS3).1 =
      Except.ok (Poll.ready { rw_vec := () }) := by
  decide

/-- C6 (amended): reaching the `Command` stage with no command event
attached makes the poll resolve with the configuration error, leaving the
request unchanged; but the error is not fatal to the request: attaching a
complete command event afterwards lets the same request resolve
successfully. -/
theorem missing_command_event_error (p : PendingRwGuard) (s : Sys) (e : Nat)
    (hrv : p.rw_vec = some ()) (hst : p.stage = Stage.Command) (hce : p.command_event = none) :
    PendingRwGuard.poll p s =
      (Except.error "PendingRwGuard::poll_command: No command event set.", p, s) ∧
    (s.events.get? e = some EvState.complete →
      PendingRwGuard.poll (set_command_event p e) s =
        (Except.ok (Poll.ready { rw_vec := () }),
         { p with command_event := some e, rw_vec := none }, s)) := by
  constructor
  · simp [PendingRwGuard.poll, hrv, hst, poll_command, hce]
  · intro hcomp
    have hic : isComplete s e = Except.ok true := by
      unfold isComplete
      rw [hcomp]
    simp [PendingRwGuard.poll, set_command_event, hrv, hst, poll_command, hic]

/-- C6 witness: the missing-command-event behavior on the concrete run. -/
theorem missing_command_event_error_witness :
    PendingRwGuard.poll runP1x runS3 =
      (Except.error "PendingRwGuard::poll_command: No command event set.", runP1x, runS3) ∧
    PendingRwGuard.poll (set_command_event runP1x 0) runS3 =
      (Except.ok (Poll.ready { rw_vec := () }),
       { runP1x with command_event := some 0, rw_vec := none }, runS3) :=
  ⟨(missing_command_event_error runP1x runS3 0 (by decide) (by decide) (by decide)).1,
   (missing_command_event_error runP1x runS3 0 (by decide) (by decide) (by decide)).2
     (by decide)⟩

/-- C7: once a `PendingRwGuard` has resolved (its `RwVec` reference was
moved out into an `RwGuard`, leaving `rw_vec = none`), every subsequent
poll fails with the distinct already-completed error rather than silently
doing nothing or yielding a second result; and every successful
resolution does leave `rw_vec = none`. -/
theorem poll_after_resolution (p : PendingRwGuard) (s : Sys) (h : p.rw_vec = none) :
    PendingRwGuard.poll p s =
      (Except.error "PendingRwGuard::poll: Task already completed.", p, s) ∧
    (∀ (q : PendingRwGuard) (t : Sys) (g : RwGuard),
      (PendingRwGuard.poll q t).1 = Except.ok (Poll.ready g) →
      ((PendingRwGuard.poll q t).2.1).rw_vec = none) := by
  constructor
  · simp [PendingRwGuard.poll, h]
  · intro q t g hready
    rcases poll_cases q t with ⟨_, hne⟩ | ⟨hnone, _⟩
    · exact absurd hready (hne g)
    · exact hnone

/-- C7 witness: polling an already-resolved request fails with the
already-completed error. -/
theorem poll_after_resolution_witness :
    PendingRwGuard.poll dummyGuard sysEmpty =
      (Except.error "PendingRwGuard::poll: Task already completed.", dummyGuard, sysEmpty) :=
  (poll_after_resolution dummyGuard sysEmpty (by decide)).1

/-- C8: in the `Marker` stage, a present and still-pending wait event
causes a wakeup callback to be registered on it and the poll to return
`NotReady` with the request unchanged; an absent or complete wait event
advances the request to the `Qutex` stage and performs the qutex poll
within the same call. -/
theorem marker_stage_behavior (p : PendingRwGuard) (s : Sys)
    (hrv : p.rw_vec = some ()) (hst : p.stage = Stage.Marker) :
    (∀ w, p.wait_event = some w → s.events.get? w = some EvState.pending →
      PendingRwGuard.poll p s =
        (Except.ok Poll.notReady, p, { s with callbacks := s.callbacks ++ [w] })) ∧
    ((p.wait_event = none ∨
        ∃ w, p.wait_event = some w ∧ s.events.get? w = some EvState.complete) →
      PendingRwGuard.poll p s = poll_qutex { p with stage := Stage.Qutex } s) := by
  constructor
  · intro w hw hpend
    exact marker_pending_step p s w hrv hst hw hpend
  · intro hcase
    rcases hcase with hnone | ⟨w, hw, hcomp⟩
    · simp [PendingRwGuard.poll, hrv, hst, poll_marker, hnone]
    · have hic : isComplete s w = Except.ok true := by
        unfold isComplete
        rw [hcomp]
      simp [PendingRwGuard.poll, hrv, hst, poll_marker, hw, hic]

/-- C8 witness: both marker behaviors on concrete requests. -/
theorem marker_stage_behavior_witness :
    PendingRwGuard.poll runWP runW.2 =
      (Except.ok Poll.notReady, runWP, { runW.2 with callbacks := runW.2.callbacks ++ [0] }) ∧
    PendingRwGuard.poll runP1 runS2 = poll_qutex { runP1 with stage := Stage.Qutex } runS2 :=
  ⟨(marker_stage_behavior runWP runW.2 (by decide) (by decide)).1 0 (by decide) (by decide),
   (marker_stage_behavior runP1 runS2 (by decide) (by decide)).2 (Or.inl (by decide))⟩

/-- C9: `lock_pending_event` pushes the request onto the qutex queue
before building the `PendingRwGuard`; when building fails (trigger-event
creation error) the error is returned, while the already-pushed request
stays queued and its notification channel is closed. -/
theorem failed_lock_leaves_request_queued (s : Sys) (wv : Option Nat) :
    (RwVec.lock_pending_event false wv s).1 = Except.error "Event creation failed." ∧
    ((RwVec.lock_pending_event false wv s).2).qutex.queue =
      s.qutex.queue ++ [s.channels.length] ∧
    ((RwVec.lock_pending_event false wv s).2).channels.get? s.channels.length =
      some ChanState.closed := by
  refine ⟨rfl, rfl, ?_⟩
  show ((s.channels ++ [ChanState.waiting]).set s.channels.length ChanState.closed).get?
      s.channels.length = some ChanState.closed
  apply getq_set_self
  simp

/-- C10: `Platform::first` with `ignore_env_var = true` returns the
platform at index 0 of the `core::get_platform_ids` result, and panics
on the out-of-bounds index (rather than returning an error) when that
list is empty. -/
theorem platform_first_panics_on_empty (d : Except String Nat) (p : Nat) (ids : List Nat) :
    Platform.first true (Except.ok (p :: ids)) d = RunResult.ok p ∧
    Platform.first true (Except.ok []) d = RunResult.panic :=
  ⟨rfl, rfl⟩

end OclSpec
